import Mathlib

/-!
Shallow embedding of the job-orchestration core of the `reporting-ui`
repository (BullMQ-backed report-generation queue, worker process, and
status API), together with theorems checking the specification's claims
against it.

Source files embedded here:
* `src/lib/job-queue.ts` — `mapJobStatus`, `createJob`, `getJob`
* `src/lib/report-queue.ts` — queue configuration, `removeJob`, `getJobStatus`
* `src/app/api/jobs/route.ts` — progress-percent computation of the two GET handlers
* `worker/index.ts` (`src/unnamed/part_004`) — `processJob`
* `worker/report-generator.ts` (in `src/README.md`) — `retryWithBackoff`,
  `generateReport`

JavaScript numbers are modelled as exact rationals `ℚ`, with the non-finite
values (`NaN`, `Infinity`) made explicit where a division can produce them.
Wall-clock time, file-system writes and logging are outside the embedding.
-/

namespace ReportingUI

/-- Legacy job status vocabulary of `src/lib/job-queue.ts`
(`type JobStatus = "queued" | "processing" | "completed" | "failed"`). -/
inductive JobStatus where
  | queued
  | processing
  | completed
  | failed
deriving DecidableEq, Repr

/-- Embedding of `mapJobStatus` (src/lib/job-queue.ts, lines 38-52): a
`switch` on the BullMQ state string whose `default` branch returns
`"queued"`. -/
def mapJobStatus (state : String) : JobStatus :=
  if state = "waiting" then .queued
  else if state = "delayed" then .queued
  else if state = "active" then .processing
  else if state = "completed" then .completed
  else if state = "failed" then .failed
  else .queued

/-- Embedding of the `ReportJobProgress` interface of
`src/lib/report-queue.ts` (step, current, total, optional message). -/
structure ReportJobProgress where
  step : String
  current : ℚ
  total : ℚ
  message : Option String
deriving DecidableEq, Repr

/-- A JavaScript number: either a finite value (modelled exactly as a
rational) or one of the non-finite values `NaN`, `Infinity`, `-Infinity`
that division by zero produces. -/
inductive JsNum where
  | num : ℚ → JsNum
  | nan : JsNum
  | posInf : JsNum
  | negInf : JsNum
deriving DecidableEq, Repr

/-- JavaScript division `a / b`: ordinary division for `b ≠ 0`, and the
IEEE-754 rules `a / 0 = ±Infinity` (sign of `a`) and `0 / 0 = NaN`. -/
def jsDiv (a b : ℚ) : JsNum :=
  if b ≠ 0 then .num (a / b)
  else if 0 < a then .posInf
  else if a < 0 then .negInf
  else .nan

/-- Multiplication of a JavaScript number by the literal `100`
(`Infinity * 100 = Infinity`, `NaN * 100 = NaN`). -/
def jsMul100 : JsNum → JsNum
  | .num q => .num (q * 100)
  | .nan => .nan
  | .posInf => .posInf
  | .negInf => .negInf

/-- `Math.round` on a finite value: round half toward positive infinity,
i.e. `⌊x + 1/2⌋`. -/
def jsRoundQ (q : ℚ) : ℤ := ⌊q + 1 / 2⌋

/-- `Math.round` on a JavaScript number (`Math.round(Infinity) = Infinity`,
`Math.round(NaN) = NaN`). -/
def jsRound : JsNum → JsNum
  | .num q => .num (jsRoundQ q)
  | .nan => .nan
  | .posInf => .posInf
  | .negInf => .negInf

/-- Embedding of the progress field of `JobQueue.getJob`
(src/lib/job-queue.ts, lines 136-138):
`progress ? Math.round((progress.current / progress.total) * 100) : 0`.
No guard on `progress.total = 0`. -/
def jobQueueProgressPercent (progress : Option ReportJobProgress) : JsNum :=
  match progress with
  | some p => jsRound (jsMul100 (jsDiv p.current p.total))
  | none => .num 0

/-- Embedding of the progress-percent computation of `GET /api/jobs`
(src/app/api/jobs/route.ts, lines 94-110): the division runs only when
`prog.current` and `prog.total` are defined and `prog.total > 0`;
otherwise the percent stays `0`. -/
def listRouteProgressPercent (progress : Option ReportJobProgress) : ℤ :=
  match progress with
  | some p => if 0 < p.total then jsRoundQ (p.current / p.total * 100) else 0
  | none => 0

/-- Embedding of the progress-percent computation of `GET /api/jobs/[jobId]`
(src/app/api/jobs/route.ts, lines 201-211): the guard is the JavaScript
truthiness test `prog.current && prog.total`, i.e. both nonzero; otherwise
the percent stays `0`. -/
def jobRouteProgressPercent (progress : Option ReportJobProgress) : ℤ :=
  match progress with
  | some p =>
      if p.current ≠ 0 ∧ p.total ≠ 0 then jsRoundQ (p.current / p.total * 100)
      else 0
  | none => 0

/-- JavaScript `s.includes(pat)`: `pat` occurs as a contiguous substring. -/
def includesSubstr (s pat : String) : Bool := decide (pat.toList <:+: s.toList)

/-- Embedding of the retryable-error classification inside `retryWithBackoff`
(worker/report-generator.ts): an error is network-related exactly when its
message contains one of five fixed substrings. -/
def isNetworkError (msg : String) : Bool :=
  includesSubstr msg "ETIMEDOUT" || includesSubstr msg "ECONNRESET" ||
  includesSubstr msg "ENOTFOUND" || includesSubstr msg "Network error" ||
  includesSubstr msg "rate limit"

/-- Observable outcome of a `retryWithBackoff` run: the final result, the
number of invocations of the wrapped function, and the list of backoff
delays slept between invocations. -/
structure RetryOutcome (α : Type) where
  result : Except String α
  calls : ℕ
  delays : List ℕ
deriving Repr

/-- Embedding of the `for (attempt = 0; attempt <= maxRetries; attempt++)`
loop of `retryWithBackoff` (worker/report-generator.ts): the list argument
is the remaining attempt indices (the caller passes `[0, …, maxRetries]`).
A successful call returns immediately; a failed call re-enters the loop
after sleeping `min(initialDelay * 2 ^ attempt, maxDelay)` if the error is
network-related and attempts remain, and otherwise rethrows. The `[]` case
is the loop's unreachable fall-through `throw lastError`. The wrapped
function is modelled as a map from attempt index to that invocation's
outcome. -/
def retryLoop (fn : ℕ → Except String α) (maxRetries initialDelay maxDelay : ℕ) :
    List ℕ → RetryOutcome α
  | [] => ⟨.error "Retry failed", 0, []⟩
  | attempt :: rest =>
    match fn attempt with
    | .ok v => ⟨.ok v, 1, []⟩
    | .error e =>
      if isNetworkError e && decide (attempt < maxRetries) then
        let r := retryLoop fn maxRetries initialDelay maxDelay rest
        ⟨r.result, r.calls + 1, min (initialDelay * 2 ^ attempt) maxDelay :: r.delays⟩
      else ⟨.error e, 1, []⟩

/-- Embedding of `retryWithBackoff(fn, maxRetries, initialDelay, maxDelay)`
(worker/report-generator.ts). -/
def retryWithBackoff (fn : ℕ → Except String α) (maxRetries initialDelay maxDelay : ℕ) :
    RetryOutcome α :=
  retryLoop fn maxRetries initialDelay maxDelay (List.range (maxRetries + 1))

/-- Default `maxRetries` of `retryWithBackoff` (worker/report-generator.ts):
3 retries beyond the first attempt. -/
def retryDefaultMaxRetries : ℕ := 3

/-- Default `initialDelay` (ms) of `retryWithBackoff`. -/
def retryDefaultInitialDelay : ℕ := 1000

/-- Default `maxDelay` (ms) of `retryWithBackoff`. -/
def retryDefaultMaxDelay : ℕ := 10000

/-- `maxRetries` passed at the fetch call site in `generateReport`. -/
def fetchMaxRetries : ℕ := 3

/-- `initialDelay` (ms) passed at the fetch call site in `generateReport`. -/
def fetchInitialDelay : ℕ := 2000

/-- `maxDelay` (ms) passed at the fetch call site in `generateReport`. -/
def fetchMaxDelay : ℕ := 15000

/-- The `attempts` option of the BullMQ queue configuration
(src/lib/report-queue.ts, lines 70-75). -/
def queueDefaultAttempts : ℕ := 3

/-- The exponential-backoff base delay (ms) of the BullMQ queue
configuration (src/lib/report-queue.ts, lines 70-75). -/
def queueBackoffDelay : ℕ := 5000

/-- Embedding of the `outputs` field of the `ReportJobResult` interface
(src/lib/report-queue.ts, lines 39-53). -/
structure JobOutputs where
  html : Option String
  md : Option String
  pdf : Option String
deriving DecidableEq, Repr

/-- Embedding of the `stats` field of the `ReportJobResult` interface. -/
structure JobStats where
  duration : ℕ
  llmCallsCount : ℕ
deriving DecidableEq, Repr

/-- Embedding of the `ReportJobResult` interface
(src/lib/report-queue.ts, lines 39-53). -/
structure ReportJobResult where
  success : Bool
  reportPath : String
  outputs : JobOutputs
  stats : JobStats
  error : Option String
deriving DecidableEq, Repr

/-- The error-shaped result that `generateReport`'s catch-all builds
(worker/report-generator.ts, final `catch`): `success: false`, empty
outputs, and the error message recorded in the result. Wall-clock
duration and the LLM call count are abstracted to `0`. -/
def mkErrorResult (msg : String) : ReportJobResult :=
  { success := false, reportPath := "", outputs := ⟨none, none, none⟩,
    stats := ⟨0, 0⟩, error := some msg }

/-- The wrapper message thrown by `generateReport`'s fetch `catch` block
(worker/report-generator.ts): the original message is embedded in a
`Data fetching failed` wrapper before the outer catch records it. -/
def fetchErrorMessage (e : String) : String :=
  "Data fetching failed: " ++ e ++
    ". Check if NCBI PubMed API is accessible and rate limits are not exceeded."

/-- Environment describing the outcomes of the external effects performed
by one `generateReport` run: plugin loading and interface verification,
the successive `fetchFromAPI` invocations (indexed by attempt number,
since `retryWithBackoff` may call it several times), `processAPIData`,
`getLLMConfig`, the report-engine/render steps, and whether the optional
PDF render succeeds. -/
structure GenEnv where
  pluginLoad : Except String Unit
  fetch : ℕ → Except String Unit
  processData : Except String Unit
  llmConfig : Except String Unit
  engine : Except String Unit
  pdfOk : Bool

/-- Embedding of `generateReport` (worker/report-generator.ts): the whole
body is one `try` block whose `catch` converts any thrown error into a
returned `ReportJobResult` with `success: false` — the function never
throws. `fetchFromAPI` is wrapped in `retryWithBackoff(·, 3, 2000, 15000)`;
a fetch or data-processing error is rethrown wrapped in
`fetchErrorMessage`. File paths and render outputs are abstracted to
fixed strings; the claims never inspect them. -/
def generateReport (env : GenEnv) : ReportJobResult :=
  match env.pluginLoad with
  | .error e => mkErrorResult e
  | .ok _ =>
    match (retryWithBackoff env.fetch fetchMaxRetries fetchInitialDelay fetchMaxDelay).result with
    | .error e => mkErrorResult (fetchErrorMessage e)
    | .ok _ =>
      match env.processData with
      | .error e => mkErrorResult (fetchErrorMessage e)
      | .ok _ =>
        match env.llmConfig with
        | .error e => mkErrorResult e
        | .ok _ =>
          match env.engine with
          | .error e => mkErrorResult e
          | .ok _ =>
            { success := true,
              reportPath := "/shared/reporting-framework/reports",
              outputs := { html := some "report.html", md := some "report.md",
                           pdf := if env.pdfOk then some "report.pdf" else none },
              stats := ⟨0, 0⟩, error := none }

/-- Number of `fetchFromAPI` invocations made by one `generateReport` run:
zero when plugin loading already failed, and the invocation count of the
`retryWithBackoff` wrapper otherwise. -/
def generateReportFetchCalls (env : GenEnv) : ℕ :=
  match env.pluginLoad with
  | .error _ => 0
  | .ok _ => (retryWithBackoff env.fetch fetchMaxRetries fetchInitialDelay fetchMaxDelay).calls

/-- Embedding of `processJob` (worker/index.ts, lines 27-92): it awaits
`generateReport` and returns its result; its `catch` converts an
unexpectedly thrown error into a `success: false` result. In every case
`processJob` returns normally — it never rethrows to the queue. -/
def processJob (gen : Except String ReportJobResult) : ReportJobResult :=
  match gen with
  | .ok r => r
  | .error e =>
      { success := false, reportPath := "", outputs := ⟨none, none, none⟩,
        stats := ⟨0, 0⟩, error := some e }

/-- The handler the worker registers with the queue: each delivery runs
`processJob` on the `generateReport` outcome. Since the modelled
`generateReport` is total (its source catches every error), every
delivery yields a normal return value. -/
def workerHandler (env : GenEnv) : ℕ → Except String ReportJobResult :=
  fun _ => .ok (processJob (Except.ok (generateReport env)))

/-- BullMQ job states relevant to this queue (as returned by
`job.getState()`). -/
inductive QState where
  | waiting
  | delayed
  | active
  | completed
  | failed
deriving DecidableEq, Repr

/-- Point-in-time view of one queued job: its state, its return value
(`job.returnvalue`), its failure reason (`job.failedReason`), and its
attempt counter (`job.attemptsMade`). -/
structure QJob where
  state : QState
  returnvalue : Option ReportJobResult
  failedReason : Option String
  attemptsMade : ℕ
deriving DecidableEq, Repr

/-- Modelled from the spec: the per-job state machine of §4.2 and the
re-delivery loop of §4.3, which the repository delegates to the external
BullMQ library (configured in `getReportQueue`, src/lib/report-queue.ts,
with `attempts` = `maxAttempts`); BullMQ itself is not under src/. The
list argument is the remaining delivery indices (the run starts with
`[0, …, maxAttempts-1]`). Each delivery makes the job `active` and runs
the handler: a returned value completes the job with that value as
`returnvalue`; a thrown error re-enqueues it as `delayed` while attempts
remain and otherwise fails it with the error as `failedReason`.
`attemptsMade` counts finished handler invocations. -/
def attemptTrace (handler : ℕ → Except String ReportJobResult) (maxAttempts : ℕ) :
    List ℕ → List QJob
  | [] => []
  | attempt :: rest =>
    ⟨.active, none, none, attempt⟩ ::
    match handler attempt with
    | .ok r => [⟨.completed, some r, none, attempt + 1⟩]
    | .error e =>
      if attempt + 1 < maxAttempts then
        ⟨.delayed, none, none, attempt + 1⟩ :: attemptTrace handler maxAttempts rest
      else [⟨.failed, none, some e, attempt + 1⟩]

/-- The successive states of one job from submission to its terminal
state: `waiting` at `addReportJob`, then the delivery trace. -/
def jobTrace (handler : ℕ → Except String ReportJobResult) (maxAttempts : ℕ) : List QJob :=
  ⟨.waiting, none, none, 0⟩ :: attemptTrace handler maxAttempts (List.range maxAttempts)

/-- The state trace of a report job processed by the worker of
worker/index.ts: the queue's delivery loop driving `processJob` over
`generateReport`. -/
def runReportJob (env : GenEnv) (maxAttempts : ℕ) : List QJob :=
  jobTrace (workerHandler env) maxAttempts

/-- States in which a job is not yet terminal. -/
def nonTerminal : QState → Bool
  | .waiting | .delayed | .active => true
  | .completed | .failed => false

/-- The result/error invariant of the spec (§3): `returnvalue` and
`failedReason` are never both present, and both are absent while the job
is non-terminal. -/
def resultErrorInv (q : QJob) : Prop :=
  (nonTerminal q.state = true → q.returnvalue = none ∧ q.failedReason = none) ∧
  ¬(q.returnvalue.isSome = true ∧ q.failedReason.isSome = true)

/-- Test environment: `fetchFromAPI` throws `read ECONNRESET` on the first
`k` invocations and succeeds afterwards; every other step succeeds. -/
def econnresetThen (k : ℕ) : GenEnv :=
  { pluginLoad := .ok (),
    fetch := fun i => if i < k then .error "read ECONNRESET" else .ok (),
    processData := .ok (), llmConfig := .ok (), engine := .ok (), pdfOk := true }

/-- Test environment: `fetchFromAPI` throws `read ECONNRESET` on every
invocation; every other step succeeds. -/
def alwaysEconnresetEnv : GenEnv :=
  { pluginLoad := .ok (),
    fetch := fun _ => .error "read ECONNRESET",
    processData := .ok (), llmConfig := .ok (), engine := .ok (), pdfOk := true }

/-- Test environment: `fetchFromAPI` throws a fixed error message on every
invocation; every other step succeeds. -/
def fatalEnv (msg : String) : GenEnv :=
  { pluginLoad := .ok (),
    fetch := fun _ => .error msg,
    processData := .ok (), llmConfig := .ok (), engine := .ok (), pdfOk := true }

/-- Test environment: `fetchFromAPI` throws a non-network validation error
on every invocation; every other step succeeds. -/
def validationErrorEnv : GenEnv :=
  { pluginLoad := .ok (),
    fetch := fun _ => .error "ValidationError: bad query",
    processData := .ok (), llmConfig := .ok (), engine := .ok (), pdfOk := true }

/-- Modelled from the spec: the Job Store of §4.1 as a key-value map from
job id to job record (the repository's store is Redis via BullMQ, not
under src/). An association list keyed by id. -/
def storeGet (s : List (String × α)) (id : String) : Option α :=
  (s.find? (fun kv => kv.1 == id)).map (fun kv => kv.2)

/-- Deletion of a key from the modelled store (the effect of
`job.remove()`). -/
def storeRemove (s : List (String × α)) (id : String) : List (String × α) :=
  s.filter (fun kv => !(kv.1 == id))

/-- Embedding of `removeJob` (src/lib/report-queue.ts, lines 195-206):
look the job up; if absent return `false` (no error), otherwise remove it
and return `true`. Returns the store after the call and the boolean the
caller sees. -/
def removeJob (s : List (String × α)) (id : String) : List (String × α) × Bool :=
  match storeGet s id with
  | none => (s, false)
  | some _ => (storeRemove s id, true)

/-- Embedding of the lookup skeleton of `getJobStatus`
(src/lib/report-queue.ts, lines 157-190): `null` (here `none`) when the
job does not exist, otherwise a view of the stored record (the view's
fields are irrelevant to the removal claim, so the record itself stands
for the view). -/
def getJobStatus (s : List (String × α)) (id : String) : Option α :=
  storeGet s id

/-- JavaScript `v || d` for an optional string: the default replaces a
missing or empty (falsy) value. -/
def jsOrDefault (v : Option String) (d : String) : String :=
  match v with
  | none => d
  | some s => if s = "" then d else s

/-- The fields of the caller-supplied `query` object that `createJob` and
the worker read (src/lib/job-queue.ts, worker logging); the rest of the
plugin-specific structure is passed through opaquely. -/
structure Query where
  llmProvider : Option String
  llmModel : Option String
  temperature : Option ℚ
  maxTokens : Option ℕ
  userId : Option String
  description : Option String
  keywords : Option String
  numberOfArticles : Option ℕ
deriving DecidableEq, Repr

/-- Embedding of the `config` field of `ReportJobData`
(src/lib/report-queue.ts, lines 16-22). -/
structure JobConfig where
  llmProvider : String
  llmModel : String
  outputFormats : List String
  temperature : Option ℚ
  maxTokens : Option ℕ
deriving DecidableEq, Repr

/-- Embedding of the `metadata` field of `ReportJobData`. -/
structure JobMetadata where
  createdAt : String
  createdBy : Option String
  description : Option String
deriving DecidableEq, Repr

/-- Embedding of the `ReportJobData` interface
(src/lib/report-queue.ts, lines 12-28). -/
structure ReportJobData where
  pluginId : String
  reportName : String
  query : Query
  config : JobConfig
  metadata : JobMetadata
deriving DecidableEq, Repr

/-- Embedding of the job data built by `JobQueue.createJob`
(src/lib/job-queue.ts, lines 58-103) and persisted via `addReportJob`:
`outputFormats` is the literal `["html", "md", "pdf"]`; `llmProvider` and
`llmModel` default via `||`; `reportType` and `format` are parameters of
`createJob` but do not occur in the built data. `now` stands for
`new Date().toISOString()`. -/
def createJobData (pipelineId reportName : String) (query : Query)
    (reportType format : String) (now : String) : ReportJobData :=
  { pluginId := pipelineId,
    reportName := reportName,
    query := query,
    config :=
      { llmProvider := jsOrDefault query.llmProvider "gemini",
        llmModel := jsOrDefault query.llmModel "gemini-2.0-flash-exp",
        outputFormats := ["html", "md", "pdf"],
        temperature := query.temperature,
        maxTokens := query.maxTokens },
    metadata :=
      { createdAt := now,
        createdBy := query.userId,
        description := query.description } }

/-- The `reportType` field of the view returned by `JobQueue.getJob`
(src/lib/job-queue.ts, line 125): the constant `"standard"`. -/
def getJobViewReportType (_data : Option ReportJobData) : String := "standard"

/-- The `format` field of the view returned by `JobQueue.getJob`
(src/lib/job-queue.ts, line 126):
`jobStatus.data?.config.outputFormats[0] || "html"`. -/
def getJobViewFormat (data : Option ReportJobData) : String :=
  match data with
  | some d => jsOrDefault d.config.outputFormats.head? "html"
  | none => "html"

/-! Helper lemmas. -/

/-- When a progress record with nonzero `total` is present,
`JobQueue.getJob` reports the finite value `round(current/total*100)`. -/
theorem jobQueuePercent_total_ne_zero (p : ReportJobProgress) (h : p.total ≠ 0) :
    jobQueueProgressPercent (some p) = .num (jsRoundQ (p.current / p.total * 100)) := by
  show jsRound (jsMul100 (jsDiv p.current p.total)) = _
  unfold jsDiv
  rw [if_pos h]
  rfl

/-- Looking up a key just removed from the modelled store finds nothing. -/
theorem storeGet_storeRemove (s : List (String × α)) (id : String) :
    storeGet (storeRemove s id) id = none := by
  unfold storeGet storeRemove
  simp only [Option.map_eq_none']
  rw [List.find?_eq_none]
  intro x hx
  have := (List.mem_filter.mp hx).2
  simp only [Bool.not_eq_true'] at this
  simp [this]

/-- `Math.round` is monotone on finite values. -/
theorem jsRoundQ_mono {a b : ℚ} (h : a ≤ b) : jsRoundQ a ≤ jsRoundQ b :=
  Int.floor_le_floor (by linarith)

/-- `Math.round` of a nonnegative finite value is nonnegative. -/
theorem jsRoundQ_nonneg {q : ℚ} (h : 0 ≤ q) : 0 ≤ jsRoundQ q :=
  Int.floor_nonneg.mpr (by linarith)

/-- `Math.round` of a finite value at most `100` is at most `100`. -/
theorem jsRoundQ_le_100 {q : ℚ} (h : q ≤ 100) : jsRoundQ q ≤ 100 := by
  have h2 : (q + 1 / 2 : ℚ) < ((101 : ℤ) : ℚ) := by push_cast; linarith
  have h3 := Int.floor_lt.mpr h2
  unfold jsRoundQ
  omega

/-! Claim theorems. -/

/-- C8: removal is idempotent — calling `removeJob` twice never errors on
the second call (it is a total function returning `false`), the removal
operation reports `false` rather than throwing when the job is absent,
and `getJobStatus` returns `none` (NotFound) after either call. -/
theorem removeJob_idempotent (s : List (String × α)) (id : String) :
    (removeJob (removeJob s id).1 id).2 = false ∧
    getJobStatus (removeJob s id).1 id = none ∧
    getJobStatus (removeJob (removeJob s id).1 id).1 id = none := by
  cases h : storeGet s id with
  | none => simp [removeJob, getJobStatus, h]
  | some j => simp [removeJob, getJobStatus, h, storeGet_storeRemove]

/-- C9: `mapJobStatus` is total over arbitrary state strings; `waiting`
and `delayed` map to `queued`, `active` to `processing`, `completed` and
`failed` to themselves, every unrecognized state to `queued`; and its
range is exactly the four-value public vocabulary (which has no `active`
member by construction of `JobStatus`). -/
theorem mapJobStatus_total_range :
    mapJobStatus "waiting" = JobStatus.queued ∧
    mapJobStatus "delayed" = JobStatus.queued ∧
    mapJobStatus "active" = JobStatus.processing ∧
    mapJobStatus "completed" = JobStatus.completed ∧
    mapJobStatus "failed" = JobStatus.failed ∧
    (∀ s : String, s ≠ "waiting" → s ≠ "delayed" → s ≠ "active" →
      s ≠ "completed" → s ≠ "failed" → mapJobStatus s = JobStatus.queued) ∧
    (∀ v : JobStatus, ∃ s : String, mapJobStatus s = v) := by
  refine ⟨rfl, rfl, rfl, rfl, rfl, ?_, ?_⟩
  · intro s h1 h2 h3 h4 h5
    simp [mapJobStatus, h1, h2, h3, h4, h5]
  · intro v
    cases v with
    | queued => exact ⟨"waiting", rfl⟩
    | processing => exact ⟨"active", rfl⟩
    | completed => exact ⟨"completed", rfl⟩
    | failed => exact ⟨"failed", rfl⟩

/-- C9 witness: the fallback branch at a state string outside the
recognized five. -/
theorem mapJobStatus_total_range_witness : mapJobStatus "paused" = JobStatus.queued :=
  mapJobStatus_total_range.2.2.2.2.2.1 "paused" (by decide) (by decide) (by decide)
    (by decide) (by decide)

/-- C10: `createJob` ignores its `reportType` and `format` arguments when
persisting the job — the built job data is unchanged under any other
choice of the two arguments, its `config.outputFormats` is the constant
`["html", "md", "pdf"]`, and the `getJob` view reports `reportType` as
the constant `"standard"` and `format` as `outputFormats[0]`, i.e.
`"html"`. -/
theorem createJob_ignores_reportType_format (pipelineId reportName : String)
    (query : Query) (reportType format reportType' format' now : String) :
    createJobData pipelineId reportName query reportType format now =
      createJobData pipelineId reportName query reportType' format' now ∧
    (createJobData pipelineId reportName query reportType format now).config.outputFormats =
      ["html", "md", "pdf"] ∧
    getJobViewReportType
      (some (createJobData pipelineId reportName query reportType format now)) = "standard" ∧
    getJobViewFormat
      (some (createJobData pipelineId reportName query reportType format now)) = "html" :=
  ⟨rfl, rfl, rfl, rfl⟩

/-- C5 counterexample: `JobQueue.getJob` does not guard the division
against `total = 0` — a recorded progress `{current: 1, total: 0}` makes
it report `Infinity`, not `0`. -/
theorem getJob_percent_total_zero_counterexample :
    jobQueueProgressPercent (some ⟨"fetch", 1, 0, none⟩) = JsNum.posInf ∧
    jobQueueProgressPercent (some ⟨"fetch", 1, 0, none⟩) ≠ JsNum.num 0 := by
  constructor <;> decide

/-- C5 (amended): with no recorded progress all three status projections
report `0`; the two `GET /api/jobs` handlers guard the division (the list
handler requires `total > 0`, the per-job handler requires `current ≠ 0`
and `total ≠ 0`) and report `0` when `total = 0`; but `JobQueue.getJob`
divides unguarded whenever a progress is recorded: for `total ≠ 0` it
reports `round(current/total*100)`, while for `total = 0` it reports
`Infinity` when `current > 0` and `NaN` when `current = 0`. -/
theorem progress_percent_guards (p : ReportJobProgress) :
    (jobQueueProgressPercent none = JsNum.num 0 ∧ listRouteProgressPercent none = 0 ∧
      jobRouteProgressPercent none = 0) ∧
    (p.total = 0 → listRouteProgressPercent (some p) = 0 ∧
      jobRouteProgressPercent (some p) = 0) ∧
    (0 < p.total → listRouteProgressPercent (some p) = jsRoundQ (p.current / p.total * 100)) ∧
    (p.total ≠ 0 →
      jobQueueProgressPercent (some p) = JsNum.num (jsRoundQ (p.current / p.total * 100))) ∧
    (p.total = 0 → 0 < p.current → jobQueueProgressPercent (some p) = JsNum.posInf) ∧
    (p.total = 0 → p.current = 0 → jobQueueProgressPercent (some p) = JsNum.nan) := by
  refine ⟨⟨rfl, rfl, rfl⟩, ?_, ?_, ?_, ?_, ?_⟩
  · intro h
    constructor
    · simp [listRouteProgressPercent, h]
    · simp [jobRouteProgressPercent, h]
  · intro h
    simp [listRouteProgressPercent, h]
  · exact fun h => jobQueuePercent_total_ne_zero p h
  · intro h hc
    show jsRound (jsMul100 (jsDiv p.current p.total)) = JsNum.posInf
    unfold jsDiv
    rw [h]
    simp [hc, jsMul100, jsRound]
  · intro h hc
    show jsRound (jsMul100 (jsDiv p.current p.total)) = JsNum.nan
    unfold jsDiv
    rw [h, hc]
    simp [jsMul100, jsRound]

/-- C5 witness: the guarded list handler reports `0` for a `total = 0`
progress while `JobQueue.getJob` reports `Infinity` on the same record. -/
theorem progress_percent_guards_witness :
    listRouteProgressPercent (some ⟨"fetch", 1, 0, none⟩) = 0 ∧
    jobQueueProgressPercent (some ⟨"fetch", 1, 0, none⟩) = JsNum.posInf :=
  ⟨((progress_percent_guards ⟨"fetch", 1, 0, none⟩).2.1 rfl).1,
    (progress_percent_guards ⟨"fetch", 1, 0, none⟩).2.2.2.2.1 rfl (by decide)⟩

/-- The backoff delays recorded by the retry loop are exactly
`min(initialDelay * 2^a, maxDelay)` mapped over a prefix of the loop's
attempt-index list. -/
theorem retryLoop_delays_eq (fn : ℕ → Except String α) (mR iD mD : ℕ) :
    ∀ l : List ℕ, ∃ n : ℕ,
      (retryLoop fn mR iD mD l).delays =
        (l.take n).map (fun a => min (iD * 2 ^ a) mD) := by
  intro l
  induction l with
  | nil => exact ⟨0, by simp [retryLoop]⟩
  | cons attempt rest ih =>
    cases hfn : fn attempt with
    | ok v => exact ⟨0, by simp [retryLoop, hfn]⟩
    | error e =>
      by_cases hc : (isNetworkError e && decide (attempt < mR)) = true
      · obtain ⟨n, hd⟩ := ih
        refine ⟨n + 1, ?_⟩
        rw [retryLoop, hfn]
        simp only [hc, if_true, List.take_succ_cons, List.map_cons]
        exact congrArg _ hd
      · exact ⟨0, by rw [retryLoop, hfn]; simp [hc]⟩

/-- The retry loop makes at most one wrapped-function invocation per
remaining attempt index. -/
theorem retryLoop_calls_le (fn : ℕ → Except String α) (mR iD mD : ℕ) :
    ∀ l : List ℕ, (retryLoop fn mR iD mD l).calls ≤ l.length := by
  intro l
  induction l with
  | nil => simp [retryLoop]
  | cons attempt rest ih =>
    cases hfn : fn attempt with
    | ok v => simp [retryLoop, hfn]
    | error e =>
      by_cases hc : (isNetworkError e && decide (attempt < mR)) = true
      · rw [retryLoop, hfn]
        simp only [hc, if_true]
        simpa using ih
      · rw [retryLoop, hfn]
        simp [hc]

/-- C3: after a retryably-failed attempt number `i` (0-based), the delay
before the next invocation equals `min(initialDelay * 2^i, maxDelay)` — a
fixed base delay doubling per attempt and capped at a maximum delay — and
the number of wrapped-function invocations is bounded by
`maxRetries + 1`, where `maxRetries` defaults to 3 retries beyond the
first attempt. -/
theorem backoff_delay_formula (fn : ℕ → Except String Unit)
    (maxRetries initialDelay maxDelay : ℕ) :
    (∀ i (h : i < (retryWithBackoff fn maxRetries initialDelay maxDelay).delays.length),
      (retryWithBackoff fn maxRetries initialDelay maxDelay).delays.get ⟨i, h⟩ =
        min (initialDelay * 2 ^ i) maxDelay) ∧
    (retryWithBackoff fn maxRetries initialDelay maxDelay).calls ≤ maxRetries + 1 ∧
    retryDefaultMaxRetries = 3 := by
  refine ⟨?_, ?_, rfl⟩
  · intro i h
    obtain ⟨n, hd⟩ := retryLoop_delays_eq fn maxRetries initialDelay maxDelay
      (List.range (maxRetries + 1))
    have h2 := List.get_of_eq hd ⟨i, h⟩
    show (retryLoop fn maxRetries initialDelay maxDelay
      (List.range (maxRetries + 1))).delays.get ⟨i, h⟩ = _
    rw [h2]
    have hi : i < (((List.range (maxRetries + 1)).take n).map
        (fun a => min (initialDelay * 2 ^ a) maxDelay)).length := by
      rw [← hd]; exact h
    simp [List.get_eq_getElem, List.getElem_map, List.getElem_take, List.getElem_range]
  · show (retryLoop fn maxRetries initialDelay maxDelay
      (List.range (maxRetries + 1))).calls ≤ _
    have h := retryLoop_calls_le fn maxRetries initialDelay maxDelay (List.range (maxRetries + 1))
    simpa using h

/-- C3 witness: a permanently failing network fetch with the call-site
parameters (3, 2000ms, 15000ms) sleeps 4000ms after its second attempt
and makes at most four invocations. -/
theorem backoff_delay_formula_witness :
    (retryWithBackoff (fun _ => (Except.error "read ECONNRESET" : Except String Unit))
        3 2000 15000).delays.get ⟨1, by decide⟩ = 4000 ∧
    (retryWithBackoff (fun _ => (Except.error "read ECONNRESET" : Except String Unit))
        3 2000 15000).calls ≤ 4 := by
  constructor
  · have h := (backoff_delay_formula (fun _ => Except.error "read ECONNRESET")
      3 2000 15000).1 1 (by decide)
    simpa using h
  · exact (backoff_delay_formula (fun _ => Except.error "read ECONNRESET") 3 2000 15000).2.1

/-- A handler that returns a value on its first delivery completes the
job on the first attempt, for any positive `maxAttempts`. -/
theorem jobTrace_getLast_of_ok (handler : ℕ → Except String ReportJobResult)
    (r : ReportJobResult) (h0 : handler 0 = .ok r) (m : ℕ) (hm : 1 ≤ m) :
    (jobTrace handler m).getLast? = some ⟨.completed, some r, none, 1⟩ := by
  obtain ⟨m', rfl⟩ : ∃ m', m = m' + 1 := ⟨m - 1, by omega⟩
  rw [jobTrace, List.range_succ_eq_map, attemptTrace, h0]
  rfl

/-- Every state in a delivery trace satisfies the result/error
invariant, whatever the handler and however many attempts remain. -/
theorem attemptTrace_inv (handler : ℕ → Except String ReportJobResult) (m : ℕ) :
    ∀ (l : List ℕ) (q : QJob), q ∈ attemptTrace handler m l → resultErrorInv q := by
  intro l
  induction l with
  | nil => intro q hq; simp [attemptTrace] at hq
  | cons attempt rest ih =>
    intro q hq
    rw [attemptTrace] at hq
    rcases List.mem_cons.mp hq with rfl | hq'
    · exact ⟨fun _ => ⟨rfl, rfl⟩, by simp⟩
    · cases hfn : handler attempt with
      | ok r =>
        rw [hfn] at hq'
        simp only [List.mem_singleton] at hq'
        subst hq'
        exact ⟨by simp [nonTerminal], by simp⟩
      | error e =>
        rw [hfn] at hq'
        by_cases hc : attempt + 1 < m
        · simp only [hc, if_true] at hq'
          rcases List.mem_cons.mp hq' with rfl | hq''
          · exact ⟨fun _ => ⟨rfl, rfl⟩, by simp⟩
          · exact ih q hq''
        · simp only [hc, if_false, List.mem_singleton] at hq'
          subst hq'
          exact ⟨by simp [nonTerminal], by simp⟩

/-- C6: at every instant of every report-job run, the job's `returnvalue`
and `failedReason` are mutually exclusive, and both are absent while the
job is in a non-terminal state (`waiting`, `delayed` or `active`). -/
theorem result_error_exclusive (env : GenEnv) (maxAttempts : ℕ) :
    ∀ q ∈ runReportJob env maxAttempts, resultErrorInv q := by
  intro q hq
  rw [runReportJob, jobTrace] at hq
  rcases List.mem_cons.mp hq with rfl | hq'
  · exact ⟨fun _ => ⟨rfl, rfl⟩, by simp⟩
  · exact attemptTrace_inv _ _ _ q hq'

/-- C6 witness: the invariant at the initial `waiting` state of a
concrete run. -/
theorem result_error_exclusive_witness :
    resultErrorInv ⟨.waiting, none, none, 0⟩ :=
  result_error_exclusive
    ⟨Except.ok (), fun _ => Except.ok (), Except.ok (), Except.ok (), Except.ok (), true⟩ 3
    ⟨.waiting, none, none, 0⟩ (by decide)

/-- C1 counterexample: with the fetch step failing retryably on every
invocation and the queue's configured `attempts = 3`, the job ends
`completed` with `attemptsMade = 1` — not `failed` with `attempts = 3`
as the claim states, because `processJob` converts every error into a
returned result. -/
theorem always_retryable_counterexample :
    (runReportJob alwaysEconnresetEnv queueDefaultAttempts).getLast?.map QJob.state =
      some QState.completed ∧
    (runReportJob alwaysEconnresetEnv queueDefaultAttempts).getLast?.map QJob.state ≠
      some QState.failed ∧
    (runReportJob alwaysEconnresetEnv queueDefaultAttempts).getLast?.map QJob.attemptsMade =
      some 1 :=
  ⟨by decide, by decide, by decide⟩

/-- C1 (amended): a handler whose fetch step fails with a retryable
network error exactly `k ≤ 3` times and then succeeds ends `completed`
carrying a `success: true` result after `k + 1` fetch invocations, with
queue-level `attemptsMade = 1`; a handler whose fetch step always fails
retryably ends — after exactly `3 + 1 = 4` fetch invocations — likewise
`completed` with `attemptsMade = 1`, carrying a `success: false` result
that records the wrapped fetch error; the retries happen inside
`retryWithBackoff`, not at the queue level, and the job never becomes
`failed` through handler errors. -/
theorem retryable_fetch_outcome (k : ℕ) (hk : k ≤ 3) (m : ℕ) (hm : 1 ≤ m) :
    (runReportJob (econnresetThen k) m).getLast? =
      some ⟨.completed, some (generateReport (econnresetThen k)), none, 1⟩ ∧
    (generateReport (econnresetThen k)).success = true ∧
    generateReportFetchCalls (econnresetThen k) = k + 1 ∧
    (runReportJob alwaysEconnresetEnv m).getLast? =
      some ⟨.completed, some (mkErrorResult (fetchErrorMessage "read ECONNRESET")), none, 1⟩ ∧
    generateReportFetchCalls alwaysEconnresetEnv = 4 := by
  refine ⟨?_, ?_, ?_, ?_, ?_⟩
  · exact jobTrace_getLast_of_ok _ _ rfl m hm
  · interval_cases k <;> decide
  · interval_cases k <;> decide
  · have h := jobTrace_getLast_of_ok (workerHandler alwaysEconnresetEnv)
      (generateReport alwaysEconnresetEnv) rfl m hm
    have e : generateReport alwaysEconnresetEnv =
        mkErrorResult (fetchErrorMessage "read ECONNRESET") := by decide
    show (jobTrace (workerHandler alwaysEconnresetEnv) m).getLast? = _
    rw [h, e]
  · decide

/-- C1 witness: two retryable fetch failures then success — the report
succeeds after three fetch invocations. -/
theorem retryable_fetch_outcome_witness :
    (generateReport (econnresetThen 2)).success = true ∧
    generateReportFetchCalls (econnresetThen 2) = 3 :=
  ⟨(retryable_fetch_outcome 2 (by decide) 3 (by decide)).2.1,
    (retryable_fetch_outcome 2 (by decide) 3 (by decide)).2.2.1⟩

/-- The outcome of `generateReport` when every fetch invocation throws a
non-network error: no retry (one invocation) and the wrapped message is
recorded in a `success: false` result. -/
theorem generateReport_fatal (msg : String) (hmsg : isNetworkError msg = false) :
    generateReport (fatalEnv msg) = mkErrorResult (fetchErrorMessage msg) ∧
    generateReportFetchCalls (fatalEnv msg) = 1 := by
  have hrange : List.range (fetchMaxRetries + 1) = [0, 1, 2, 3] := rfl
  have hloop : retryWithBackoff (fun _ => (Except.error msg : Except String Unit))
      fetchMaxRetries fetchInitialDelay fetchMaxDelay = ⟨.error msg, 1, []⟩ := by
    rw [retryWithBackoff, hrange, retryLoop]
    simp [hmsg]
  constructor
  · show (match (Except.ok () : Except String Unit) with
      | .error e => mkErrorResult e
      | .ok _ =>
        match (retryWithBackoff (fun _ => (Except.error msg : Except String Unit))
            fetchMaxRetries fetchInitialDelay fetchMaxDelay).result with
        | .error e => mkErrorResult (fetchErrorMessage e)
        | .ok _ =>
          match (Except.ok () : Except String Unit) with
          | .error e => mkErrorResult (fetchErrorMessage e)
          | .ok _ =>
            match (Except.ok () : Except String Unit) with
            | .error e => mkErrorResult e
            | .ok _ =>
              match (Except.ok () : Except String Unit) with
              | .error e => mkErrorResult e
              | .ok _ =>
                { success := true,
                  reportPath := "/shared/reporting-framework/reports",
                  outputs := { html := some "report.html", md := some "report.md",
                               pdf := if (true : Bool) then some "report.pdf" else none },
                  stats := ⟨0, 0⟩, error := none }) = mkErrorResult (fetchErrorMessage msg)
    rw [hloop]
  · show (retryWithBackoff (fun _ => (Except.error msg : Except String Unit))
        fetchMaxRetries fetchInitialDelay fetchMaxDelay).calls = 1
    rw [hloop]

/-- C2 counterexample: a handler failing with the non-retryable error
`ValidationError: bad query` ends `completed` (the error is carried
inside its returned result), not `failed` as the claim states. -/
theorem fatal_error_state_counterexample :
    (runReportJob validationErrorEnv queueDefaultAttempts).getLast?.map QJob.state =
      some QState.completed ∧
    (runReportJob validationErrorEnv queueDefaultAttempts).getLast?.map QJob.state ≠
      some QState.failed :=
  ⟨by decide, by decide⟩

/-- C2 (amended): a handler whose fetch fails with a non-retryable
(non-network) error is not retried — exactly one fetch invocation
regardless of `maxAttempts` — and the job transitions directly to
`completed` with `attemptsMade = 1`, carrying a `success: false` result
that records the wrapped error message; it does not become `failed`. -/
theorem fatal_error_short_circuit (msg : String) (hmsg : isNetworkError msg = false)
    (m : ℕ) (hm : 1 ≤ m) :
    (runReportJob (fatalEnv msg) m).getLast? =
      some ⟨.completed, some (mkErrorResult (fetchErrorMessage msg)), none, 1⟩ ∧
    generateReportFetchCalls (fatalEnv msg) = 1 := by
  obtain ⟨hres, hcalls⟩ := generateReport_fatal msg hmsg
  refine ⟨?_, hcalls⟩
  have h := jobTrace_getLast_of_ok (workerHandler (fatalEnv msg))
    (generateReport (fatalEnv msg)) rfl m hm
  show (jobTrace (workerHandler (fatalEnv msg)) m).getLast? = _
  rw [h, hres]

/-- C2 witness: the fatal short-circuit at the concrete validation error
of the spec's second scenario. -/
theorem fatal_error_short_circuit_witness :
    (runReportJob (fatalEnv "ValidationError: bad query") 3).getLast? =
      some ⟨.completed,
        some (mkErrorResult (fetchErrorMessage "ValidationError: bad query")), none, 1⟩ ∧
    generateReportFetchCalls (fatalEnv "ValidationError: bad query") = 1 :=
  fatal_error_short_circuit "ValidationError: bad query" (by decide) 3 (by decide)

/-- In a progress list whose successive `current` values are
non-decreasing, the value at a later index dominates the one at an
earlier index. -/
theorem chain'_current_le (l : List ReportJobProgress)
    (h : l.Chain' fun a b => a.current ≤ b.current) :
    ∀ (j : ℕ) (hj : j < l.length) (i : ℕ) (hij : i ≤ j),
      (l.get ⟨i, lt_of_le_of_lt hij hj⟩).current ≤ (l.get ⟨j, hj⟩).current := by
  intro j
  induction j with
  | zero =>
    intro hj i hij
    have hi0 : i = 0 := Nat.le_zero.mp hij
    subst hi0
    exact le_refl _
  | succ n ih =>
    intro hj i hij
    rcases Nat.lt_or_ge i (n + 1) with hlt | hge
    · have hn : n < l.length := Nat.lt_of_succ_lt hj
      have step : (l.get ⟨n, hn⟩).current ≤ (l.get ⟨n + 1, hj⟩).current :=
        List.chain'_iff_get.mp h n (by omega)
      exact le_trans (ih hn i (Nat.lt_succ_iff.mp hlt)) step
    · have hi : i = n + 1 := Nat.le_antisymm hij hge
      subst hi
      exact le_refl _

/-- C7 counterexample: a single `emitProgress(15, 10)` call — a
trivially non-decreasing sequence with fixed total — makes
`JobQueue.getJob` report `150`, outside `[0, 100]`; no status site
clamps the percentage. -/
theorem progress_percent_exceeds_counterexample :
    jobQueueProgressPercent (some ⟨"fetch", 15, 10, none⟩) = JsNum.num 150 ∧
    ¬(150 : ℚ) ≤ 100 := by
  constructor
  · rw [jobQueuePercent_total_ne_zero ⟨"fetch", 15, 10, none⟩ (by decide)]
    norm_num [jsRoundQ]
  · norm_num

/-- C7 (amended): for any handler-emitted sequence of progress calls
with non-decreasing `current`, fixed `total = t > 0`, and
`0 ≤ current ≤ total` (the spec's §3 progress invariant, which no code
site enforces), the percent `JobQueue.getJob` reports after a later call
dominates the one reported after any earlier call, and both are finite
values within `[0, 100]`. -/
theorem progress_percent_monotone (calls : List ReportJobProgress) (t : ℚ)
    (ht : 0 < t)
    (hfix : ∀ p ∈ calls, p.total = t)
    (hcur : ∀ p ∈ calls, 0 ≤ p.current ∧ p.current ≤ p.total)
    (hmono : calls.Chain' fun a b => a.current ≤ b.current)
    (i j : ℕ) (hij : i ≤ j) (hj : j < calls.length) :
    ∃ a b : ℤ,
      jobQueueProgressPercent (some (calls.get ⟨i, lt_of_le_of_lt hij hj⟩)) = JsNum.num a ∧
      jobQueueProgressPercent (some (calls.get ⟨j, hj⟩)) = JsNum.num b ∧
      a ≤ b ∧ 0 ≤ a ∧ b ≤ 100 := by
  have hpi_mem : calls.get ⟨i, lt_of_le_of_lt hij hj⟩ ∈ calls := calls.get_mem _ _
  have hpj_mem : calls.get ⟨j, hj⟩ ∈ calls := calls.get_mem _ _
  have hti := hfix _ hpi_mem
  have htj := hfix _ hpj_mem
  have hci := hcur _ hpi_mem
  have hcj := hcur _ hpj_mem
  refine ⟨jsRoundQ ((calls.get ⟨i, lt_of_le_of_lt hij hj⟩).current /
      (calls.get ⟨i, lt_of_le_of_lt hij hj⟩).total * 100),
    jsRoundQ ((calls.get ⟨j, hj⟩).current / (calls.get ⟨j, hj⟩).total * 100),
    jobQueuePercent_total_ne_zero _ (by rw [hti]; exact ne_of_gt ht),
    jobQueuePercent_total_ne_zero _ (by rw [htj]; exact ne_of_gt ht), ?_, ?_, ?_⟩
  · apply jsRoundQ_mono
    rw [hti, htj]
    have hcc := chain'_current_le calls hmono j hj i hij
    have h1 : (calls.get ⟨i, lt_of_le_of_lt hij hj⟩).current / t ≤
        (calls.get ⟨j, hj⟩).current / t := (div_le_div_iff_of_pos_right ht).mpr hcc
    exact mul_le_mul_of_nonneg_right h1 (by norm_num)
  · apply jsRoundQ_nonneg
    rw [hti]
    exact mul_nonneg (div_nonneg hci.1 (le_of_lt ht)) (by norm_num)
  · apply jsRoundQ_le_100
    rw [htj]
    have h1 : (calls.get ⟨j, hj⟩).current / t ≤ 1 := (div_le_one ht).mpr (htj ▸ hcj.2)
    have h2 := mul_le_mul_of_nonneg_right h1 (by norm_num : (0:ℚ) ≤ 100)
    linarith

/-- C7 witness: two calls `emitProgress(2, 10)` then `emitProgress(5, 10)`
— the reported percents are finite, ordered, and within bounds. -/
theorem progress_percent_monotone_witness :
    ∃ a b : ℤ,
      jobQueueProgressPercent (some ⟨"fetch", 2, 10, none⟩) = JsNum.num a ∧
      jobQueueProgressPercent (some ⟨"fetch", 5, 10, none⟩) = JsNum.num b ∧
      a ≤ b ∧ 0 ≤ a ∧ b ≤ 100 := by
  have h := progress_percent_monotone
    [⟨"fetch", 2, 10, none⟩, ⟨"fetch", 5, 10, none⟩] 10 (by decide)
    (by decide) (by decide) (by norm_num [List.chain'_cons]) 0 1 (by decide) (by decide)
  exact h

end ReportingUI
